import Mathlib

/-!
Verification of the news-app job execution engine.

This file gives a shallow embedding, in Lean 4, of the job-runner core of
the `news-app` repository: the heuristic JSON extraction and repair pass,
the Discord notification retry loop, the article content fetcher, the
article insert guarded by URL uniqueness, and the Runner state machine
(`Run`, `Resume`, `executeJob`, `finalizeRun`) together with the database
operations they perform.  Strings are modelled as lists of characters
(the Go code walks bytes; all decision characters are ASCII, so the
character-level model makes the same decisions byte for byte on ASCII
input, and treats each multi-byte code point as one opaque unit).
Theorems about the embedded definitions settle the frozen claims.
-/

namespace NewsApp

/-- The backtick character, written via its code point. -/
def btick : Char := Char.ofNat 96

/-- Characters trimmed by `strings.TrimLeft(s, " \t\n\r")` in
`fixMalformedJSON`. -/
def isCutsetWs (c : Char) : Bool :=
  c = ' ' || c = '\t' || c = '\n' || c = '\r'

/-- Drop leading characters from the cutset, modelling `strings.TrimLeft`. -/
def trimLeftCutset : List Char → List Char
  | [] => []
  | c :: cs => if isCutsetWs c then trimLeftCutset cs else c :: cs

/-- The terminator test of `fixMalformedJSON`: the repaired quote closes the
string when the following (trimmed) window is empty or starts with one of
`,` `}` `]` `:`. -/
def looksLikeStringEnd (rest : List Char) : Bool :=
  match rest with
  | [] => true
  | c :: _ => c = ',' || c = '}' || c = ']' || c = ':'

/-- Character-level embedding of the scanning loop of `fixMalformedJSON`
(`jobrunner` package).  `inString` and `escapeNext` are the two state
variables of the Go loop; the 20-byte lookahead `s[i+1:i+20]` is the
19-character window `cs.take 19` of the remaining input. -/
def fixChars (inString escapeNext : Bool) : List Char → List Char
  | [] => []
  | c :: cs =>
    if escapeNext then c :: fixChars inString false cs
    else if c = '\\' then c :: fixChars inString true cs
    else if c = '"' then
      if !inString then c :: fixChars true false cs
      else
        if looksLikeStringEnd (trimLeftCutset (cs.take 19)) then
          c :: fixChars false false cs
        else
          '\\' :: '"' :: fixChars true false cs
    else c :: fixChars inString escapeNext cs

/-- `fixMalformedJSON` attempts to fix common LLM JSON issues by escaping
unescaped quotes found inside strings. -/
def fixMalformedJSON (s : String) : String :=
  String.mk (fixChars false false s.data)

/-- Whitespace class `\s` of the Go regexp package: `[\t\n\f\r ]`. -/
def isRegexSpace (c : Char) : Bool :=
  c = '\t' || c = '\n' || c = '\x0C' || c = '\r' || c = ' '

/-- Try to match the pattern of `codeBlockEnd` (`(?m)\s*` + three backticks +
`\s*`) at the current position: a maximal run of `\s`, then three backticks,
then a maximal trailing run of `\s`.  Returns the remaining input after the
match, or `none` when the pattern does not match here. -/
def cbEndMatchNow (l : List Char) : Option (List Char) :=
  match l.dropWhile isRegexSpace with
  | b1 :: b2 :: b3 :: rest =>
    if b1 = btick && b2 = btick && b3 = btick then
      some (rest.dropWhile isRegexSpace)
    else none
  | _ => none

/-- Replace-all loop for the `codeBlockEnd` regex: scan left to right, and at
each position try `cbEndMatchNow`; a successful match is deleted and
scanning resumes after it (Go `ReplaceAllString` semantics, with the empty
replacement).  `fuel` bounds the recursion and is initialised to the input
length, which suffices because every step consumes at least one character. -/
def replaceCBEndAux : Nat → List Char → List Char
  | 0, l => l
  | _ + 1, [] => []
  | fuel + 1, c :: cs =>
    match cbEndMatchNow (c :: cs) with
    | some rest => replaceCBEndAux fuel rest
    | none => c :: replaceCBEndAux fuel cs

/-- `codeBlockEnd.ReplaceAllString(text, "")`. -/
def replaceCBEnd (l : List Char) : List Char :=
  replaceCBEndAux l.length l

/-- Try to match the pattern of `codeBlockStart`
(`(?m)^\s*` + three backticks + optional `json` + `\s*`) at a line start:
a maximal run of `\s` (which may cross newlines), three backticks, the
literal `json` if present, then a maximal trailing `\s` run.  Returns
whether the last matched character is a newline (so the continuation is
again at a line start) and the remaining input. -/
def cbStartMatchNow (l : List Char) : Option (Bool × List Char) :=
  match l.dropWhile isRegexSpace with
  | b1 :: b2 :: b3 :: rest =>
    if b1 = btick && b2 = btick && b3 = btick then
      let rest2 := if rest.take 4 = ['j', 's', 'o', 'n'] then rest.drop 4 else rest
      let ws2 := rest2.takeWhile isRegexSpace
      some (ws2.getLast? = some '\n', rest2.dropWhile isRegexSpace)
    else none
  | _ => none

/-- Split off the current line, inclusive of its terminating newline: the
match of `codeBlockStart` is anchored by `^`, so when it fails at a line
start the next candidate position is just after the next newline. -/
def breakLine : List Char → List Char × List Char
  | [] => ([], [])
  | c :: cs =>
    if c = '\n' then ([c], cs)
    else
      let p := breakLine cs
      (c :: p.1, p.2)

/-- Replace-all loop for the `codeBlockStart` regex.  `atLineStart` records
whether the current position satisfies the `(?m)^` anchor; matches are
deleted and scanning resumes after them.  `fuel` bounds the recursion and
is initialised to the input length. -/
def replaceCBStartAux : Nat → Bool → List Char → List Char
  | 0, _, l => l
  | _ + 1, _, [] => []
  | fuel + 1, atLineStart, c :: cs =>
    if atLineStart then
      match cbStartMatchNow (c :: cs) with
      | some (nl, rest) => replaceCBStartAux fuel nl rest
      | none =>
        let p := breakLine (c :: cs)
        p.1 ++ replaceCBStartAux fuel true p.2
    else
      let p := breakLine (c :: cs)
      p.1 ++ replaceCBStartAux fuel true p.2

/-- `codeBlockStart.ReplaceAllString(text, "")`. -/
def replaceCBStart (l : List Char) : List Char :=
  replaceCBStartAux l.length true l

/-- Whitespace recognised by `strings.TrimSpace` (`unicode.IsSpace`),
restricted to the Latin-1 range: tab, newline, vertical tab, form feed,
carriage return, space, next line, and no-break space. -/
def isUnicodeSpace (c : Char) : Bool :=
  c = '\t' || c = '\n' || c = '\x0B' || c = '\x0C' || c = '\r' || c = ' ' ||
  c = '\x85' || c = '\xA0'

/-- `strings.TrimSpace`: drop Unicode whitespace from both ends. -/
def trimSpace (l : List Char) : List Char :=
  ((l.dropWhile isUnicodeSpace).reverse.dropWhile isUnicodeSpace).reverse

/-- `jsonArrayRegex.FindString` for the pattern `(?s)\[.*\]`: the match, when
one exists, runs from the first `[` of the text to the last `]` after it
(leftmost match, greedy `.*` with `.` matching newline). -/
def findJSONArray (l : List Char) : Option (List Char) :=
  match l.dropWhile (fun c => !(c = '[')) with
  | [] => none
  | lb :: rest =>
    match rest.reverse.dropWhile (fun c => !(c = ']')) with
    | [] => none
    | tail => some (lb :: tail.reverse)

/-- `extractJSONArray` finds and extracts a JSON array from text: strip
markdown code block markers, trim whitespace, then take the first `[`
through the last `]`. -/
def extractJSONArray (s : String) : Except String String :=
  match findJSONArray (trimSpace (replaceCBEnd (replaceCBStart s.data))) with
  | none => Except.error "no JSON array found in response"
  | some m => Except.ok (String.mk m)

/-- ArticleInfo holds metadata about an article from the agent's response
(JSON tags `title`, `url`, `summary`). -/
structure ArticleInfo where
  title : String
  url : String
  summary : String
deriving Repr, DecidableEq

/-- A JSON value, for the model of `encoding/json` parsing.  Numbers keep
their lexeme; they are never decoded into the target struct. -/
inductive JVal where
  | jstr : String → JVal
  | jnum : String → JVal
  | jbool : Bool → JVal
  | jnull : JVal
  | jarr : List JVal → JVal
  | jobj : List (String × JVal) → JVal

/-- JSON insignificant whitespace: space, tab, newline, carriage return. -/
def isJsonWs (c : Char) : Bool :=
  c = ' ' || c = '\t' || c = '\n' || c = '\r'

/-- Skip JSON whitespace. -/
def skipJWs (l : List Char) : List Char :=
  l.dropWhile isJsonWs

/-- Parse the body of a JSON string after the opening quote, returning its
decoded characters and the input after the closing quote.  Standard escapes
are decoded; `\u` escapes are outside the modelled subset and rejected, as
are raw control characters. -/
def parseJStringAux : List Char → Option (List Char × List Char)
  | [] => none
  | c :: cs =>
    if c = '"' then some ([], cs)
    else if c = '\\' then
      match cs with
      | [] => none
      | e :: cs2 =>
        let dec : Option Char :=
          if e = '"' then some '"'
          else if e = '\\' then some '\\'
          else if e = '/' then some '/'
          else if e = 'b' then some '\x08'
          else if e = 'f' then some '\x0C'
          else if e = 'n' then some '\n'
          else if e = 'r' then some '\r'
          else if e = 't' then some '\t'
          else none
        match dec with
        | none => none
        | some d =>
          match parseJStringAux cs2 with
          | none => none
          | some p => some (d :: p.1, p.2)
    else if c.toNat < 32 then none
    else
      match parseJStringAux cs with
      | none => none
      | some p => some (c :: p.1, p.2)

/-- Split a maximal run of ASCII digits off the front of the input. -/
def splitDigits (l : List Char) : List Char × List Char :=
  (l.takeWhile Char.isDigit, l.dropWhile Char.isDigit)

/-- Parse a JSON number lexeme (sign, integer part, optional fraction and
exponent), returning the lexeme and the remaining input. -/
def parseJNumber (l : List Char) : Option (List Char × List Char) :=
  let signed : List Char × List Char :=
    match l with
    | c :: cs => if c = '-' then ([c], cs) else ([], l)
    | [] => ([], l)
  match signed.2 with
  | [] => none
  | c :: cs =>
    if !c.isDigit then none
    else
      let intPart : List Char × List Char :=
        if c = '0' then ([c], cs)
        else let p := splitDigits cs; (c :: p.1, p.2)
      let frac : Option (List Char × List Char) :=
        match intPart.2 with
        | '.' :: r =>
          let p := splitDigits r
          if p.1 = [] then none else some ('.' :: p.1, p.2)
        | _ => some ([], intPart.2)
      match frac with
      | none => none
      | some fp =>
        let expo : Option (List Char × List Char) :=
          match fp.2 with
          | e :: r =>
            if e = 'e' || e = 'E' then
              let sgn : List Char × List Char :=
                match r with
                | s :: r2 => if s = '+' || s = '-' then ([s], r2) else ([], r)
                | [] => ([], r)
              let p := splitDigits sgn.2
              if p.1 = [] then none else some (e :: sgn.1 ++ p.1, p.2)
            else some ([], fp.2)
          | [] => some ([], fp.2)
        match expo with
        | none => none
        | some ep => some (signed.1 ++ intPart.1 ++ fp.1 ++ ep.1, ep.2)

mutual

/-- Parse one JSON value (model of the `encoding/json` grammar); `fuel`
bounds the recursion depth and is initialised large enough by `parseTop`. -/
def parseValue : Nat → List Char → Option (JVal × List Char)
  | 0, _ => none
  | fuel + 1, l =>
    match skipJWs l with
    | [] => none
    | c :: cs =>
      if c = '"' then
        match parseJStringAux cs with
        | none => none
        | some p => some (JVal.jstr (String.mk p.1), p.2)
      else if c = '[' then
        match skipJWs cs with
        | ']' :: rest => some (JVal.jarr [], rest)
        | l2 =>
          match parseArrayItems fuel l2 with
          | none => none
          | some p => some (JVal.jarr p.1, p.2)
      else if c = '{' then
        match skipJWs cs with
        | '}' :: rest => some (JVal.jobj [], rest)
        | l2 =>
          match parseObjectItems fuel l2 with
          | none => none
          | some p => some (JVal.jobj p.1, p.2)
      else if c = 't' then
        if cs.take 3 = ['r', 'u', 'e'] then some (JVal.jbool true, cs.drop 3) else none
      else if c = 'f' then
        if cs.take 4 = ['a', 'l', 's', 'e'] then some (JVal.jbool false, cs.drop 4) else none
      else if c = 'n' then
        if cs.take 3 = ['u', 'l', 'l'] then some (JVal.jnull, cs.drop 3) else none
      else
        match parseJNumber (c :: cs) with
        | none => none
        | some p => some (JVal.jnum (String.mk p.1), p.2)

/-- Parse the non-empty item list of a JSON array, up to and including the
closing bracket. -/
def parseArrayItems : Nat → List Char → Option (List JVal × List Char)
  | 0, _ => none
  | fuel + 1, l =>
    match parseValue fuel l with
    | none => none
    | some (v, rest) =>
      match skipJWs rest with
      | ',' :: rest2 =>
        match parseArrayItems fuel rest2 with
        | none => none
        | some p => some (v :: p.1, p.2)
      | ']' :: rest2 => some ([v], rest2)
      | _ => none

/-- Parse the non-empty member list of a JSON object, up to and including
the closing brace. -/
def parseObjectItems : Nat → List Char → Option (List (String × JVal) × List Char)
  | 0, _ => none
  | fuel + 1, l =>
    match skipJWs l with
    | '"' :: cs =>
      match parseJStringAux cs with
      | none => none
      | some kp =>
        match skipJWs kp.2 with
        | ':' :: rest2 =>
          match parseValue fuel rest2 with
          | none => none
          | some (v, rest3) =>
            match skipJWs rest3 with
            | ',' :: rest4 =>
              match parseObjectItems fuel rest4 with
              | none => none
              | some p => some ((String.mk kp.1, v) :: p.1, p.2)
            | '}' :: rest4 => some ([(String.mk kp.1, v)], rest4)
            | _ => none
        | _ => none
    | _ => none

end

/-- Parse a complete JSON document: one value with only whitespace after it
(`encoding/json` rejects trailing data). -/
def parseTop (l : List Char) : Option JVal :=
  match parseValue (2 * l.length + 2) l with
  | some (v, rest) => if skipJWs rest = [] then some v else none
  | none => none

/-- Lower-case ASCII letters, for the case-insensitive field-name match of
`encoding/json`. -/
def asciiLower (s : String) : String :=
  String.mk (s.data.map fun c =>
    if 'A' ≤ c && c ≤ 'Z' then Char.ofNat (c.toNat + 32) else c)

/-- Assign one JSON object member to an `ArticleInfo`, as `encoding/json`
does: keys match the struct tags `title` / `url` / `summary`
case-insensitively and must then hold strings; unknown keys are ignored;
later duplicates overwrite earlier ones. -/
def setArticleField (a : ArticleInfo) (key : String) (v : JVal) : Option ArticleInfo :=
  let k := asciiLower key
  if k = "title" then
    match v with
    | JVal.jstr s => some { a with title := s }
    | _ => none
  else if k = "url" then
    match v with
    | JVal.jstr s => some { a with url := s }
    | _ => none
  else if k = "summary" then
    match v with
    | JVal.jstr s => some { a with summary := s }
    | _ => none
  else some a

/-- Decode one array element into an `ArticleInfo`: an object fills the
matching fields, `null` leaves the zero value, anything else is a type
error. -/
def decodeArticle : JVal → Option ArticleInfo
  | JVal.jnull => some ⟨"", "", ""⟩
  | JVal.jobj members => members.foldlM (fun a kv => setArticleField a kv.1 kv.2) ⟨"", "", ""⟩
  | _ => none

/-- Model of `json.Unmarshal(data, &articles)` for `articles : []ArticleInfo`:
the document must be a JSON array (or `null`, which leaves the slice nil)
and every element must decode. -/
def unmarshalArticles (s : String) : Option (List ArticleInfo) :=
  match parseTop s.data with
  | some (JVal.jarr items) => items.mapM decodeArticle
  | some JVal.jnull => some []
  | _ => none

/-- `ExtractArticlesJSON` extracts and parses the JSON array from the agent
response: extract the bracketed substring, try parsing, and on failure try
again after the `fixMalformedJSON` repair pass. -/
def ExtractArticlesJSON (s : String) : Except String (List ArticleInfo) :=
  match extractJSONArray s with
  | Except.error e => Except.error e
  | Except.ok jsonStr =>
    match unmarshalArticles jsonStr with
    | some articles => Except.ok articles
    | none =>
      match unmarshalArticles (fixMalformedJSON jsonStr) with
      | some articles => Except.ok articles
      | none => Except.error "parse JSON"

/-- Outcome of one webhook POST attempt, as seen by the retry loop of
`SendDiscordNotification`: either the HTTP round trip failed, or a status
code came back. -/
inductive WebhookOutcome where
  | transportFailure : String → WebhookOutcome
  | httpStatus : Int → WebhookOutcome
deriving Repr, DecidableEq

/-- The fixed attempt count of `SendDiscordNotification`
(`discordMaxRetries` in `discord.go`). -/
def discordMaxRetries : Nat := 3

/-- The retry loop of `SendDiscordNotification`.  `responses n` is the
outcome of the `n`-th POST (attempts are numbered from 1); `remaining` is
the number of loop iterations the `for attempt := 1; attempt <=
discordMaxRetries` header still allows, so the `remaining = 0` case is the
`return nil` after the loop.  The result pairs the returned error (`none`
for nil) with the number of POSTs performed. -/
def sendLoop (responses : Nat → WebhookOutcome) : Nat → Nat → Option String × Nat
  | 0, _ => (none, 0)
  | remaining + 1, attempt =>
    match responses attempt with
    | WebhookOutcome.transportFailure e =>
      if attempt < discordMaxRetries then
        let p := sendLoop responses remaining (attempt + 1)
        (p.1, p.2 + 1)
      else (some e, 1)
    | WebhookOutcome.httpStatus code =>
      if code = 200 || code = 204 then (none, 1)
      else if code = 429 then
        let p := sendLoop responses remaining (attempt + 1)
        (p.1, p.2 + 1)
      else if attempt < discordMaxRetries then
        let p := sendLoop responses remaining (attempt + 1)
        (p.1, p.2 + 1)
      else (some ("discord webhook failed with status " ++ toString code), 1)

/-- `SendDiscordNotification` sends a message to a Discord webhook with
retry logic; an empty webhook URL is a no-op.  Returns the error result
together with the number of POST attempts made. -/
def SendDiscordNotification (webhookURL message : String)
    (responses : Nat → WebhookOutcome) : Option String × Nat :=
  if webhookURL = "" then (none, 0)
  else sendLoop responses discordMaxRetries 1

/-- The error text the final failed attempt produces, per outcome. -/
def lastAttemptError : WebhookOutcome → String
  | WebhookOutcome.transportFailure e => e
  | WebhookOutcome.httpStatus code => "discord webhook failed with status " ++ toString code

/-- An attempt outcome on which the loop keeps retrying and eventually
fails: a transport error, or any status other than 200, 204 and 429. -/
def isRetriableFailure : WebhookOutcome → Prop
  | WebhookOutcome.transportFailure _ => True
  | WebhookOutcome.httpStatus code => code ≠ 200 ∧ code ≠ 204 ∧ code ≠ 429

instance (o : WebhookOutcome) : Decidable (isRetriableFailure o) := by
  cases o <;> simp [isRetriableFailure] <;> infer_instance

/-- Result of the HTTP GET issued by `FetchArticleContent`. -/
inductive HTTPResult where
  | transportFailure : String → HTTPResult
  | response : Int → String → HTTPResult
deriving Repr, DecidableEq

/-- Collapse runs of three or more newlines to two
(`excessiveNewlines.ReplaceAllString(content, "\n\n")`); `run` counts the
newlines currently buffered. -/
def collapseNewlinesAux (run : Nat) : List Char → List Char
  | [] => List.replicate (Nat.min run 2) '\n'
  | c :: cs =>
    if c = '\n' then collapseNewlinesAux (run + 1) cs
    else List.replicate (Nat.min run 2) '\n' ++ c :: collapseNewlinesAux 0 cs

/-- Collapse runs of two or more spaces to one
(`excessiveSpaces.ReplaceAllString(content, " ")`). -/
def collapseSpacesAux (run : Nat) : List Char → List Char
  | [] => List.replicate (Nat.min run 1) ' '
  | c :: cs =>
    if c = ' ' then collapseSpacesAux (run + 1) cs
    else List.replicate (Nat.min run 1) ' ' ++ c :: collapseSpacesAux 0 cs

/-- `FetchArticleContent` fetches and extracts readable content from a URL.
The network is abstracted as the `resp` argument and the go-readability
library as the `readab` argument; the 5MB body cap is a character-level
take.  The whitespace cleanup and placeholder strings follow
`content.go`. -/
def FetchArticleContent (url : String) (resp : HTTPResult)
    (readab : String → Except String String) : Except String String :=
  if url = "" then Except.ok "(No URL provided)"
  else
    match resp with
    | HTTPResult.transportFailure e => Except.error ("fetch URL: " ++ e)
    | HTTPResult.response status body =>
      if status ≠ 200 then Except.error ("HTTP " ++ toString status)
      else
        match readab (String.mk (body.data.take (5 * 1024 * 1024))) with
        | Except.error e => Except.error ("parse content: " ++ e)
        | Except.ok content =>
          if content = "" then Except.ok "[Content could not be extracted from this page]"
          else
            Except.ok (String.mk (trimSpace
              (collapseSpacesAux 0 (collapseNewlinesAux 0 content.data))))

/-- The batch content-fetch stage of the Runner (`fetchArticleContents`):
one result slot per candidate, index-aligned.  An empty URL yields the
fixed placeholder without a fetch; a fetch error stores the
`[Error fetching article: ...]` placeholder at that index instead of
aborting.  The bounded-concurrency fan-out is modelled by the per-index
`httpResponses` oracle; the Go code joins all fetches before returning. -/
def fetchArticleContentsAux (httpResponses : Nat → HTTPResult)
    (readab : String → Except String String) : Nat → List ArticleInfo → List String
  | _, [] => []
  | i, info :: rest =>
    (if info.url = "" then "(No URL provided)"
     else
       match FetchArticleContent info.url (httpResponses i) readab with
       | Except.error e => "[Error fetching article: " ++ e ++ "]"
       | Except.ok content => content)
    :: fetchArticleContentsAux httpResponses readab (i + 1) rest

/-- Index-aligned batch fetch starting at candidate 0. -/
def fetchArticleContents (httpResponses : Nat → HTTPResult)
    (readab : String → Except String String) (articles : List ArticleInfo) : List String :=
  fetchArticleContentsAux httpResponses readab 0 articles

/-- A row of the `jobs` table (the columns the Runner touches).  Timestamps
are modelled as integer seconds. -/
structure Job where
  id : Int
  userID : Int
  name : String
  prompt : String
  keywords : String
  sources : String
  region : String
  frequency : String
  isOneTime : Int
  isActive : Int
  status : String
  lastRunAt : Option Int
  nextRunAt : Option Int
  currentConversationID : Option String
deriving Repr, DecidableEq

/-- A row of the `job_runs` table. -/
structure JobRun where
  id : Int
  jobID : Int
  status : String
  errorMessage : Option String
  articlesSaved : Option Int
  duplicatesSkipped : Option Int
  startedAt : Option Int
  completedAt : Option Int
  logPath : Option String
deriving Repr, DecidableEq

/-- A row of the `articles` table (the columns `insertArticle` writes). -/
structure ArticleRow where
  jobID : Int
  userID : Int
  title : String
  url : String
  summary : String
  contentPath : String
deriving Repr, DecidableEq

/-- The per-user `preferences` row consumed by the Runner. -/
structure Pref where
  systemPrompt : String
  discordWebhook : String
  notifySuccess : Int
  notifyFailure : Int
deriving Repr, DecidableEq

/-- The database state the Runner mutates, restricted to one Job (every
query the Runner issues is keyed by this job's id or by a run id).  Run
ids are unique; `createJobRun` lists the newest row first.  `notifications`
records the Discord messages handed to the dispatcher. -/
structure DB where
  job : Job
  prefs : Pref
  runs : List JobRun
  articles : List ArticleRow
  notifications : List String
  nextRunId : Int
deriving Repr, DecidableEq

/-- `SELECT ... FROM job_runs WHERE id = ?`. -/
def findRun (runs : List JobRun) (runID : Int) : Option JobRun :=
  runs.find? (fun r => r.id = runID)

/-- `UpdateJobStatus`: `UPDATE jobs SET status = ?, last_run_at = ?,
next_run_at = ?, updated_at = CURRENT_TIMESTAMP WHERE id = ?`.  Both
timestamp columns are overwritten with the given parameters. -/
def updateJobStatus (db : DB) (id : Int) (status : String)
    (lastRunAt nextRunAt : Option Int) : DB :=
  if db.job.id = id then
    { db with job :=
        { db.job with
          status := status
          lastRunAt := lastRunAt
          nextRunAt := nextRunAt } }
  else db

/-- `UpdateJobConversation`: `UPDATE jobs SET current_conversation_id = ?
WHERE id = ?`. -/
def updateJobConversation (db : DB) (id : Int) (convID : Option String) : DB :=
  if db.job.id = id then
    { db with job := { db.job with currentConversationID := convID } }
  else db

/-- `DeactivateJob`: `UPDATE jobs SET is_active = 0 WHERE id = ?`. -/
def deactivateJob (db : DB) (id : Int) : DB :=
  if db.job.id = id then
    { db with job := { db.job with isActive := 0 } }
  else db

/-- `CreateJobRun`: `INSERT INTO job_runs (job_id, status, started_at)
VALUES (?, 'running', CURRENT_TIMESTAMP) RETURNING *`. -/
def createJobRun (db : DB) (jobID : Int) (now : Int) : JobRun × DB :=
  let run : JobRun :=
    { id := db.nextRunId, jobID := jobID, status := "running",
      errorMessage := none, articlesSaved := none, duplicatesSkipped := none,
      startedAt := some now, completedAt := none, logPath := none }
  (run, { db with runs := run :: db.runs, nextRunId := db.nextRunId + 1 })

/-- `UpdateJobRunLogPath`: `UPDATE job_runs SET log_path = ? WHERE id = ?`. -/
def updateJobRunLogPath (db : DB) (runID : Int) (path : String) : DB :=
  { db with runs := db.runs.map (fun r =>
      if r.id = runID then { r with logPath := some path } else r) }

/-- `UpdateJobRunComplete` (query `CompleteJobRun`): `UPDATE job_runs SET
status = ?, error_message = ?, articles_saved = ?, duplicates_skipped = ?,
completed_at = CURRENT_TIMESTAMP WHERE id = ?`. -/
def completeJobRun (db : DB) (runID : Int) (status : String)
    (errorMessage : String) (saved dups : Int) (now : Int) : DB :=
  { db with runs := db.runs.map (fun r =>
      if r.id = runID then
        { r with status := status, errorMessage := some errorMessage,
                 articlesSaved := some saved, duplicatesSkipped := some dups,
                 completedAt := some now }
      else r) }

/-- The distinguishing error message recorded on orphaned runs. -/
def orphanCancelMessage : String := "Cancelled: superseded by a new run"

/-- Modelled from the spec: `CancelOrphanedRuns` (its SQL is not under
`src/`).  The spec requires cancelling any other JobRun for the same Job
still marked running, recording them as cancelled with a distinguishing
error message. -/
def cancelOrphanedRuns (db : DB) (jobID : Int) (now : Int) : DB :=
  { db with runs := db.runs.map (fun r =>
      if r.jobID = jobID && r.status = "running" then
        { r with status := "cancelled", errorMessage := some orphanCancelMessage,
                 completedAt := some now }
      else r) }

/-- Modelled from the spec: `ArticleExistsByURL` (its SQL is not under
`src/`).  The spec describes an insert-time existence check on the
(user, url) pair; the model counts matching rows. -/
def articleExistsByURL (articles : List ArticleRow) (userID : Int) (url : String) : Nat :=
  articles.countP (fun r => r.userID = userID && r.url = url)

/-- `CreateArticle`: `INSERT INTO articles (job_id, user_id, title, url,
summary, content_path, retrieved_at) VALUES (...)`. -/
def createArticle (db : DB) (row : ArticleRow) : DB :=
  { db with articles := db.articles ++ [row] }

/-- The article row `insertArticle` builds from a candidate. -/
def newArticleRow (job : Job) (info : ArticleInfo) (contentPath : String) : ArticleRow :=
  { jobID := job.id, userID := job.userID, title := info.title,
    url := info.url, summary := info.summary, contentPath := contentPath }

/-- `insertArticle`: check whether an article with this (user, URL) already
exists; if so classify the attempt as a duplicate (`false`) and store
nothing, otherwise insert the row and report `true`. -/
def insertArticle (db : DB) (job : Job) (info : ArticleInfo)
    (contentPath : String) : Bool × DB :=
  if articleExistsByURL db.articles job.userID info.url > 0 then
    (false, db)
  else
    (true, createArticle db (newArticleRow job info contentPath))

/-- `util.CalculateNextRun(frequency, false)`, with time in seconds. -/
def calculateNextRun (frequency : String) (now : Int) : Int :=
  if frequency = "hourly" then now + 3600
  else if frequency = "6hours" then now + 6 * 3600
  else if frequency = "daily" then now + 24 * 3600
  else if frequency = "weekly" then now + 7 * 24 * 3600
  else now + 24 * 3600

/-- Outcome of the conversation poll loop when the context survives:
either the agent finished with a final text, or the job timeout fired. -/
inductive PollResult where
  | completed : String → PollResult
  | timedOut : PollResult
deriving Repr, DecidableEq

/-- The external world of one job run: the clock, the Shelley conversation
service, the per-candidate HTTP fetches, the readability library, and
whether the run's context is cancelled (modelled as the shutdown signal
arriving during the polling loop, the one place the Go code blocks). -/
structure Env where
  now : Int
  existingConvUsable : Bool
  createConv : Except String String
  ctxCancelled : Bool
  pollResult : PollResult
  httpResponses : Nat → HTTPResult
  readab : String → Except String String

/-- `checkExistingConversation`: reuse the job's current conversation when
it exists upstream and is not yet complete, else create a new one.
`env.existingConvUsable` models the `GetConversation` + `IsComplete`
outcome. -/
def checkExistingConversation (env : Env) (job : Job) : String × Bool :=
  match job.currentConversationID with
  | none => ("", true)
  | some cid =>
    if cid = "" then ("", true)
    else if env.existingConvUsable then (cid, false)
    else ("", true)

/-- `pollForCompletion`: poll until the conversation completes, the context
is cancelled (returning `ctx.Err()`), or the timeout elapses.  Transient
poll errors are retried inside the loop and never surface. -/
def pollForCompletion (env : Env) : Except String String :=
  if env.ctxCancelled then Except.error "context canceled"
  else
    match env.pollResult with
    | PollResult.timedOut => Except.error "job timed out"
    | PollResult.completed text => Except.ok text

/-- The outcome of `executeJob` (`JobResult` in the source). -/
structure JobResult where
  articlesSaved : Int
  duplicatesSkipped : Int
  conversationID : String
  error : Option String
deriving Repr, DecidableEq

/-- The loop body of `processArticles`: write the article file (outside the
modelled state), insert the row, and count it as saved or duplicate.  The
per-item DB error branch of the Go code (log and skip) cannot fire in the
model, where inserts always succeed. -/
def processArticlesAux (job : Job) : List ArticleInfo → Int × Int × DB → Int × Int × DB
  | [], acc => acc
  | info :: rest, (saved, dups, db) =>
    let p := insertArticle db job info ("article_" ++ toString (saved + dups))
    if p.1 then processArticlesAux job rest (saved + 1, dups, p.2)
    else processArticlesAux job rest (saved, dups + 1, p.2)

/-- `processArticles`: fetch contents for all candidates (the contents go
into files, outside the modelled DB state), then insert each candidate,
classifying it as saved or duplicate. -/
def processArticles (env : Env) (job : Job) (articles : List ArticleInfo)
    (db : DB) : Int × Int × DB :=
  let _contents := fetchArticleContents env.httpResponses env.readab articles
  processArticlesAux job articles (0, 0, db)

/-- `executeJob`: resolve or create the conversation, store its id on the
job, poll to completion, extract the article list from the agent text, and
process the articles.  Prompt construction, the articles directory, and
the best-effort conversation archival have no effect on the modelled
state and are omitted. -/
def executeJob (env : Env) (job : Job) (db : DB) : JobResult × DB :=
  let conv := checkExistingConversation env job
  match (if conv.2 then env.createConv else Except.ok conv.1) with
  | Except.error e =>
    ({ articlesSaved := 0, duplicatesSkipped := 0, conversationID := "",
       error := some ("create conversation: " ++ e) }, db)
  | Except.ok convID =>
    let db := updateJobConversation db job.id (some convID)
    match pollForCompletion env with
    | Except.error e =>
      ({ articlesSaved := 0, duplicatesSkipped := 0, conversationID := convID,
         error := some e }, db)
    | Except.ok text =>
      match ExtractArticlesJSON text with
      | Except.error e =>
        ({ articlesSaved := 0, duplicatesSkipped := 0, conversationID := convID,
           error := some ("failed to extract articles: " ++ e) }, db)
      | Except.ok articles =>
        let p :=
          if articles.length > 0 then processArticles env job articles db
          else (0, 0, db)
        ({ articlesSaved := p.1, duplicatesSkipped := p.2.1,
           conversationID := convID, error := none }, p.2.2)

/-- `sendNotification`: build the Discord message per the run outcome and
the user's notification toggles, and hand it to the dispatcher (recorded
in `db.notifications`; delivery errors are logged and never fail the
run). -/
def sendNotification (db : DB) (prefs : Pref) (jobName : String)
    (result : JobResult) : DB :=
  if prefs.discordWebhook = "" then db
  else
    let q := String.mk [Char.ofNat 39]
    match result.error with
    | some e =>
      if prefs.notifyFailure = 0 then db
      else { db with notifications := db.notifications ++
              ["❌ News job " ++ q ++ jobName ++ q ++ " failed: " ++ e] }
    | none =>
      if prefs.notifySuccess = 0 then db
      else if result.articlesSaved = 0 then
        { db with notifications := db.notifications ++
            ["ℹ️ News job " ++ q ++ jobName ++ q ++ " completed - no new articles found"] }
      else
        { db with notifications := db.notifications ++
            ["✅ News job " ++ q ++ jobName ++ q ++ " completed! (" ++
             toString result.articlesSaved ++ " new articles)"] }

/-- `finalizeRun`: guarded by the run still being in running state, write
the run's final status, error message and counts; compute the job's next
run time (only when recurring and error-free); mark the job completed or
failed; deactivate one-time jobs; clear the conversation reference; and
dispatch the notification. -/
def finalizeRun (env : Env) (job : Job) (runID : Int) (result : JobResult)
    (prefs : Pref) (db : DB) : DB :=
  match findRun db.runs runID with
  | none => db
  | some run =>
    if run.status ≠ "running" then db
    else
      let runStatus :=
        if result.error.isSome then "failed"
        else if result.articlesSaved = 0 then "completed_no_new"
        else "completed"
      let errorMsg := (result.error).getD ""
      let db := completeJobRun db runID runStatus errorMsg
        result.articlesSaved result.duplicatesSkipped env.now
      let nextRunAt : Option Int :=
        if job.isOneTime = 0 && result.error.isNone then
          some (calculateNextRun job.frequency env.now)
        else none
      let jobStatus := if result.error.isSome then "failed" else "completed"
      let db := if job.isOneTime = 1 then deactivateJob db job.id else db
      let db := updateJobStatus db job.id jobStatus (some env.now) nextRunAt
      let db := updateJobConversation db job.id (some "")
      sendNotification db prefs job.name result

/-- `Run`: execute a job by id.  Load the job and preferences, cancel
orphaned runs, create the JobRun, mark the job running (the SQL overwrites
`last_run_at` with the omitted nil parameter), record the log path,
execute, and — unless the context was cancelled, in which case the run is
left in running state for a later resume — finalize.  The start jitter
sleep has no state effect. -/
def Run (env : Env) (db : DB) (jobID : Int) : Except String Unit × DB :=
  if db.job.id ≠ jobID then (Except.error "job not found", db)
  else
    let job := db.job
    let prefs := db.prefs
    let db := cancelOrphanedRuns db jobID env.now
    let p := createJobRun db jobID env.now
    let run := p.1
    let db := updateJobStatus p.2 jobID "running" none job.nextRunAt
    let db := updateJobRunLogPath db run.id ("run_" ++ toString run.id ++ ".log")
    let q := executeJob env job db
    let result := q.1
    let db := q.2
    if env.ctxCancelled then (Except.error "context canceled", db)
    else
      let db := finalizeRun env job run.id result prefs db
      ((match result.error with
        | some e => Except.error e
        | none => Except.ok ()), db)

/-- `Resume`: continue an existing job run left in running state by an
unclean shutdown.  Load the run, require running status, load the job and
preferences, execute (reusing the stored conversation when possible), and
— unless the context was cancelled again — finalize. -/
def Resume (env : Env) (db : DB) (runID : Int) : Except String Unit × DB :=
  match findRun db.runs runID with
  | none => (Except.error "run not found", db)
  | some run =>
    if run.status ≠ "running" then (Except.error "run is not in running state", db)
    else if db.job.id ≠ run.jobID then (Except.error "job not found", db)
    else
      let job := db.job
      let prefs := db.prefs
      let q := executeJob env job db
      let result := q.1
      let db := q.2
      if env.ctxCancelled then (Except.error "context canceled", db)
      else
        let db := finalizeRun env job runID result prefs db
        ((match result.error with
          | some e => Except.error e
          | none => Except.ok ()), db)

/-- The run error computed by `executeJob` depends only on the environment
and the job row, not on the database: it is the conversation-creation
error, the poll error (cancellation or timeout), or the extraction error,
in that order. -/
def execError (env : Env) (job : Job) : Option String :=
  match (if (checkExistingConversation env job).2 then env.createConv
      else Except.ok (checkExistingConversation env job).1) with
  | Except.error e => some ("create conversation: " ++ e)
  | Except.ok _ =>
    match pollForCompletion env with
    | Except.error e => some e
    | Except.ok text =>
      match ExtractArticlesJSON text with
      | Except.error e => some ("failed to extract articles: " ++ e)
      | Except.ok _ => none

/-- The uniqueness invariant of the `articles` table: no two rows share a
(user, URL) pair with a non-empty URL. -/
def uniqueUserUrl (articles : List ArticleRow) : Prop :=
  articles.Pairwise (fun a b => a.userID = b.userID → a.url = b.url → a.url = "")

instance (articles : List ArticleRow) : Decidable (uniqueUserUrl articles) := by
  unfold uniqueUserUrl
  exact List.instDecidablePairwise articles

/-! Concrete fixtures, used by witnesses and counterexamples. -/

/-- A recurring daily job with a scheduled next run. -/
def exJob : Job :=
  { id := 1, userID := 7, name := "tech news", prompt := "latest tech",
    keywords := "", sources := "", region := "", frequency := "daily",
    isOneTime := 0, isActive := 1, status := "pending", lastRunAt := none,
    nextRunAt := some 5000, currentConversationID := none }

/-- Preferences with a webhook and both notification toggles on. -/
def exPrefs : Pref :=
  { systemPrompt := "", discordWebhook := "https://discord.example/hook",
    notifySuccess := 1, notifyFailure := 1 }

/-- A database holding the example job and no runs. -/
def exDB : DB :=
  { job := exJob, prefs := exPrefs, runs := [], articles := [],
    notifications := [], nextRunId := 10 }

/-- A run of the example job in running state. -/
def exRun : JobRun :=
  { id := 10, jobID := 1, status := "running", errorMessage := none,
    articlesSaved := none, duplicatesSkipped := none, startedAt := some 100,
    completedAt := none, logPath := some "run_10.log" }

/-- The example database with the running run recorded. -/
def exDBRunning : DB := { exDB with runs := [exRun], nextRunId := 11 }

/-- An environment in which the conversation is created, the agent answers
with one article, and nothing is cancelled. -/
def exEnvOK : Env :=
  { now := 100, existingConvUsable := false, createConv := Except.ok "cv1",
    ctxCancelled := false,
    pollResult := PollResult.completed
      "[\x7b\"title\":\"A\",\"url\":\"http://x\",\"summary\":\"s\"\x7d]",
    httpResponses := fun _ => HTTPResult.response 200 "body",
    readab := fun s => Except.ok s }

/-- The same environment with the context cancelled during polling. -/
def exEnvCancel : Env := { exEnvOK with ctxCancelled := true }

/-- The same environment with the poll loop timing out. -/
def exEnvTimeout : Env := { exEnvOK with pollResult := PollResult.timedOut }

/-! Theorems.  First a collection of frame lemmas describing which parts of
the database state each modelled query leaves untouched. -/

@[simp] lemma updateJobStatus_runs (db : DB) (i : Int) (st : String)
    (lra nra : Option Int) : (updateJobStatus db i st lra nra).runs = db.runs := by
  unfold updateJobStatus; split <;> rfl

@[simp] lemma updateJobStatus_notifications (db : DB) (i : Int) (st : String)
    (lra nra : Option Int) :
    (updateJobStatus db i st lra nra).notifications = db.notifications := by
  unfold updateJobStatus; split <;> rfl

@[simp] lemma updateJobStatus_articles (db : DB) (i : Int) (st : String)
    (lra nra : Option Int) : (updateJobStatus db i st lra nra).articles = db.articles := by
  unfold updateJobStatus; split <;> rfl

@[simp] lemma updateJobStatus_nextRunId (db : DB) (i : Int) (st : String)
    (lra nra : Option Int) : (updateJobStatus db i st lra nra).nextRunId = db.nextRunId := by
  unfold updateJobStatus; split <;> rfl

@[simp] lemma updateJobStatus_job_id (db : DB) (i : Int) (st : String)
    (lra nra : Option Int) : (updateJobStatus db i st lra nra).job.id = db.job.id := by
  unfold updateJobStatus; split <;> rfl

@[simp] lemma updateJobConversation_runs (db : DB) (i : Int) (c : Option String) :
    (updateJobConversation db i c).runs = db.runs := by
  unfold updateJobConversation; split <;> rfl

@[simp] lemma updateJobConversation_notifications (db : DB) (i : Int) (c : Option String) :
    (updateJobConversation db i c).notifications = db.notifications := by
  unfold updateJobConversation; split <;> rfl

@[simp] lemma updateJobConversation_articles (db : DB) (i : Int) (c : Option String) :
    (updateJobConversation db i c).articles = db.articles := by
  unfold updateJobConversation; split <;> rfl

@[simp] lemma updateJobConversation_nextRunId (db : DB) (i : Int) (c : Option String) :
    (updateJobConversation db i c).nextRunId = db.nextRunId := by
  unfold updateJobConversation; split <;> rfl

@[simp] lemma updateJobConversation_job_id (db : DB) (i : Int) (c : Option String) :
    (updateJobConversation db i c).job.id = db.job.id := by
  unfold updateJobConversation; split <;> rfl

@[simp] lemma updateJobConversation_job_status (db : DB) (i : Int) (c : Option String) :
    (updateJobConversation db i c).job.status = db.job.status := by
  unfold updateJobConversation; split <;> rfl

@[simp] lemma updateJobConversation_job_nextRunAt (db : DB) (i : Int) (c : Option String) :
    (updateJobConversation db i c).job.nextRunAt = db.job.nextRunAt := by
  unfold updateJobConversation; split <;> rfl

@[simp] lemma deactivateJob_runs (db : DB) (i : Int) :
    (deactivateJob db i).runs = db.runs := by
  unfold deactivateJob; split <;> rfl

@[simp] lemma deactivateJob_notifications (db : DB) (i : Int) :
    (deactivateJob db i).notifications = db.notifications := by
  unfold deactivateJob; split <;> rfl

@[simp] lemma deactivateJob_job_id (db : DB) (i : Int) :
    (deactivateJob db i).job.id = db.job.id := by
  unfold deactivateJob; split <;> rfl

@[simp] lemma deactivateJob_job_status (db : DB) (i : Int) :
    (deactivateJob db i).job.status = db.job.status := by
  unfold deactivateJob; split <;> rfl

@[simp] lemma deactivateJob_job_nextRunAt (db : DB) (i : Int) :
    (deactivateJob db i).job.nextRunAt = db.job.nextRunAt := by
  unfold deactivateJob; split <;> rfl

@[simp] lemma completeJobRun_job (db : DB) (rid : Int) (st em : String)
    (sv dp now : Int) : (completeJobRun db rid st em sv dp now).job = db.job := rfl

@[simp] lemma completeJobRun_notifications (db : DB) (rid : Int) (st em : String)
    (sv dp now : Int) :
    (completeJobRun db rid st em sv dp now).notifications = db.notifications := rfl

@[simp] lemma updateJobRunLogPath_job (db : DB) (rid : Int) (p : String) :
    (updateJobRunLogPath db rid p).job = db.job := rfl

@[simp] lemma updateJobRunLogPath_notifications (db : DB) (rid : Int) (p : String) :
    (updateJobRunLogPath db rid p).notifications = db.notifications := rfl

@[simp] lemma cancelOrphanedRuns_job (db : DB) (i now : Int) :
    (cancelOrphanedRuns db i now).job = db.job := rfl

@[simp] lemma cancelOrphanedRuns_notifications (db : DB) (i now : Int) :
    (cancelOrphanedRuns db i now).notifications = db.notifications := rfl

@[simp] lemma cancelOrphanedRuns_nextRunId (db : DB) (i now : Int) :
    (cancelOrphanedRuns db i now).nextRunId = db.nextRunId := rfl

@[simp] lemma insertArticle_runs (db : DB) (j : Job) (info : ArticleInfo) (p : String) :
    (insertArticle db j info p).2.runs = db.runs := by
  unfold insertArticle; split <;> rfl

@[simp] lemma insertArticle_notifications (db : DB) (j : Job) (info : ArticleInfo) (p : String) :
    (insertArticle db j info p).2.notifications = db.notifications := by
  unfold insertArticle; split <;> rfl

@[simp] lemma insertArticle_job (db : DB) (j : Job) (info : ArticleInfo) (p : String) :
    (insertArticle db j info p).2.job = db.job := by
  unfold insertArticle; split <;> rfl

@[simp] lemma insertArticle_nextRunId (db : DB) (j : Job) (info : ArticleInfo) (p : String) :
    (insertArticle db j info p).2.nextRunId = db.nextRunId := by
  unfold insertArticle; split <;> rfl

lemma processArticlesAux_frame (j : Job) :
    ∀ (articles : List ArticleInfo) (acc : Int × Int × DB),
      (processArticlesAux j articles acc).2.2.runs = acc.2.2.runs ∧
      (processArticlesAux j articles acc).2.2.notifications = acc.2.2.notifications ∧
      (processArticlesAux j articles acc).2.2.job = acc.2.2.job ∧
      (processArticlesAux j articles acc).2.2.nextRunId = acc.2.2.nextRunId := by
  intro articles
  induction articles with
  | nil => intro acc; exact ⟨rfl, rfl, rfl, rfl⟩
  | cons info rest ih =>
    intro acc
    obtain ⟨saved, dups, db⟩ := acc
    simp only [processArticlesAux]
    split
    · obtain ⟨h1, h2, h3, h4⟩ :=
        ih (saved + 1, dups, (insertArticle db j info ("article_" ++ toString (saved + dups))).2)
      refine ⟨?_, ?_, ?_, ?_⟩
      · rw [h1]; simp
      · rw [h2]; simp
      · rw [h3]; simp
      · rw [h4]; simp
    · obtain ⟨h1, h2, h3, h4⟩ :=
        ih (saved, dups + 1, (insertArticle db j info ("article_" ++ toString (saved + dups))).2)
      refine ⟨?_, ?_, ?_, ?_⟩
      · rw [h1]; simp
      · rw [h2]; simp
      · rw [h3]; simp
      · rw [h4]; simp

/-- The conversation and poll phases of `executeJob` touch neither the run
rows nor the notifications, and `processArticles` only touches article
rows; so `executeJob` preserves runs, notifications, the run-id counter,
and the job row's identity. -/
lemma executeJob_frame (env : Env) (job : Job) (db : DB) :
    (executeJob env job db).2.runs = db.runs ∧
    (executeJob env job db).2.notifications = db.notifications ∧
    (executeJob env job db).2.nextRunId = db.nextRunId ∧
    (executeJob env job db).2.job.id = db.job.id := by
  simp only [executeJob]
  rcases hcc : (if (checkExistingConversation env job).2 then env.createConv
      else Except.ok (checkExistingConversation env job).1) with e | convID
  · simp
  · simp only []
    rcases hp : pollForCompletion env with e | text
    · simp
    · simp only []
      rcases hx : ExtractArticlesJSON text with e | articles
      · simp
      · simp only []
        by_cases hlen : articles.length > 0
        · rw [if_pos hlen]
          obtain ⟨h1, h2, h3, h4⟩ := processArticlesAux_frame job articles
            (0, 0, updateJobConversation db job.id (some convID))
          simp only [processArticles]
          refine ⟨?_, ?_, ?_, ?_⟩
          · rw [h1]; simp
          · rw [h2]; simp
          · rw [h4]; simp
          · rw [h3]; simp
        · simp [hlen]

lemma executeJob_error (env : Env) (job : Job) (db : DB) :
    (executeJob env job db).1.error = execError env job := by
  simp only [executeJob, execError]
  rcases hcc : (if (checkExistingConversation env job).2 then env.createConv
      else Except.ok (checkExistingConversation env job).1) with e | convID
  · simp
  · simp only []
    rcases hp : pollForCompletion env with e | text
    · simp
    · simp only []
      rcases hx : ExtractArticlesJSON text with e | articles
      · simp
      · by_cases hlen : articles.length > 0 <;> simp [hlen]

/-- Claim C5 (spec §4.5): on persistent failure — every POST attempt a
transport error or a status other than 200, 204 and 429 — the dispatcher
makes exactly 3 attempts total and returns the error from the final
attempt. -/
theorem discord_persistent_failure_three_attempts
    (webhookURL message : String) (responses : Nat → WebhookOutcome)
    (hURL : webhookURL ≠ "")
    (hfail : ∀ n, 1 ≤ n → n ≤ 3 → isRetriableFailure (responses n)) :
    SendDiscordNotification webhookURL message responses =
      (some (lastAttemptError (responses 3)), 3) := by
  have h1 := hfail 1 (by norm_num) (by norm_num)
  have h2 := hfail 2 (by norm_num) (by norm_num)
  have h3 := hfail 3 (by norm_num) (by norm_num)
  unfold SendDiscordNotification
  rw [if_neg hURL]
  show sendLoop responses 3 1 = (some (lastAttemptError (responses 3)), 3)
  rcases hr1 : responses 1 with e1 | c1 <;> rw [hr1] at h1 <;>
    rcases hr2 : responses 2 with e2 | c2 <;> rw [hr2] at h2 <;>
      rcases hr3 : responses 3 with e3 | c3 <;> rw [hr3] at h3 <;>
        simp_all [sendLoop, discordMaxRetries, lastAttemptError, isRetriableFailure]

/-- Witness for C5: three HTTP 500 responses produce exactly 3 attempts and
the final status error. -/
theorem discord_persistent_failure_three_attempts_witness :
    SendDiscordNotification "https://discord.example/hook" "msg"
      (fun _ => WebhookOutcome.httpStatus 500) =
      (some "discord webhook failed with status 500", 3) :=
  discord_persistent_failure_three_attempts "https://discord.example/hook" "msg"
    (fun _ => WebhookOutcome.httpStatus 500) (by decide)
    (fun n h1 h2 => by constructor <;> [skip; constructor] <;> decide)

/-- Claim C9: three consecutive HTTP 429 responses make the loop fall off
its end and report success (`nil`), while any other status repeated three
times yields an error. -/
theorem discord_429_returns_nil
    (webhookURL message : String) (responses : Nat → WebhookOutcome)
    (hURL : webhookURL ≠ "")
    (h429 : ∀ n, 1 ≤ n → n ≤ 3 → responses n = WebhookOutcome.httpStatus 429) :
    SendDiscordNotification webhookURL message responses = (none, 3) ∧
    ∀ code : Int, code ≠ 200 → code ≠ 204 → code ≠ 429 →
      (SendDiscordNotification webhookURL message
        (fun _ => WebhookOutcome.httpStatus code)).1 ≠ none := by
  have h1 := h429 1 (by norm_num) (by norm_num)
  have h2 := h429 2 (by norm_num) (by norm_num)
  have h3 := h429 3 (by norm_num) (by norm_num)
  constructor
  · unfold SendDiscordNotification
    rw [if_neg hURL]
    show sendLoop responses 3 1 = (none, 3)
    simp [sendLoop, h1, h2, h3, discordMaxRetries]
  · intro code hc200 hc204 hc429
    unfold SendDiscordNotification
    rw [if_neg hURL]
    show (sendLoop (fun _ => WebhookOutcome.httpStatus code) 3 1).1 ≠ none
    simp [sendLoop, discordMaxRetries, hc200, hc204, hc429]

/-- Witness for C9: three 429s return nil after 3 attempts; three 500s do
not. -/
theorem discord_429_returns_nil_witness :
    SendDiscordNotification "https://discord.example/hook" "msg"
      (fun _ => WebhookOutcome.httpStatus 429) = (none, 3) ∧
    (SendDiscordNotification "https://discord.example/hook" "msg"
      (fun _ => WebhookOutcome.httpStatus 500)).1 ≠ none :=
  ⟨(discord_429_returns_nil "https://discord.example/hook" "msg"
      (fun _ => WebhookOutcome.httpStatus 429) (by decide)
      (fun n h1 h2 => rfl)).1,
   (discord_429_returns_nil "https://discord.example/hook" "msg"
      (fun _ => WebhookOutcome.httpStatus 429) (by decide)
      (fun n h1 h2 => rfl)).2 500 (by decide) (by decide) (by decide)⟩

lemma fetchArticleContentsAux_length (hr : Nat → HTTPResult)
    (readab : String → Except String String) :
    ∀ (articles : List ArticleInfo) (start : Nat),
      (fetchArticleContentsAux hr readab start articles).length = articles.length := by
  intro articles
  induction articles with
  | nil => intro start; rfl
  | cons info rest ih =>
    intro start
    simp [fetchArticleContentsAux, ih]

lemma fetchArticleContentsAux_get (hr : Nat → HTTPResult)
    (readab : String → Except String String) :
    ∀ (articles : List ArticleInfo) (start i : Nat),
      (fetchArticleContentsAux hr readab start articles)[i]? =
        (articles[i]?).map (fun info =>
          if info.url = "" then "(No URL provided)"
          else
            match FetchArticleContent info.url (hr (start + i)) readab with
            | Except.error e => "[Error fetching article: " ++ e ++ "]"
            | Except.ok content => content) := by
  intro articles
  induction articles with
  | nil => intro start i; simp [fetchArticleContentsAux]
  | cons info rest ih =>
    intro start i
    cases i with
    | zero => simp [fetchArticleContentsAux]
    | succ n =>
      simp only [fetchArticleContentsAux, List.getElem?_cons_succ]
      rw [ih (start + 1) n]
      have : start + 1 + n = start + (n + 1) := by omega
      rw [this]

/-- Claim C10: any HTTP status other than exactly 200 — other 2xx included —
makes `FetchArticleContent` return an error rather than content, and the
batch fetch stage then stores the `[Error fetching article: ...]`
placeholder at that candidate's index, keeping one slot per candidate
instead of aborting. -/
theorem fetch_non_200_error_batch_placeholder
    (url : String) (status : Int) (body : String)
    (readab : String → Except String String)
    (hurl : url ≠ "") (hst : status ≠ 200) :
    FetchArticleContent url (HTTPResult.response status body) readab =
      Except.error ("HTTP " ++ toString status) ∧
    ∀ (httpResponses : Nat → HTTPResult) (articles : List ArticleInfo)
      (i : Nat) (info : ArticleInfo),
      articles[i]? = some info → info.url = url →
      httpResponses i = HTTPResult.response status body →
      (fetchArticleContents httpResponses readab articles)[i]? =
        some ("[Error fetching article: HTTP " ++ toString status ++ "]") ∧
      (fetchArticleContents httpResponses readab articles).length =
        articles.length := by
  have hfetch : FetchArticleContent url (HTTPResult.response status body) readab =
      Except.error ("HTTP " ++ toString status) := by
    unfold FetchArticleContent
    rw [if_neg hurl]
    simp [hst]
  refine ⟨hfetch, ?_⟩
  intro httpResponses articles i info hget hiurl hresp
  constructor
  · rw [fetchArticleContents, fetchArticleContentsAux_get, hget]
    simp only [Option.map_some']
    rw [hiurl, if_neg hurl, Nat.zero_add, hresp, hfetch]
    rfl
  · rw [fetchArticleContents, fetchArticleContentsAux_length]

/-- Witness for C10 at status 201: the single candidate's slot holds the
error placeholder. -/
theorem fetch_non_200_error_batch_placeholder_witness :
    FetchArticleContent "http://a" (HTTPResult.response 201 "ok")
      (fun s => Except.ok s) = Except.error "HTTP 201" ∧
    (fetchArticleContents (fun _ => HTTPResult.response 201 "ok")
      (fun s => Except.ok s) [{ title := "t", url := "http://a", summary := "s" }])[0]? =
      some "[Error fetching article: HTTP 201]" ∧
    (fetchArticleContents (fun _ => HTTPResult.response 201 "ok")
      (fun s => Except.ok s) [{ title := "t", url := "http://a", summary := "s" }]).length = 1 := by
  have h := fetch_non_200_error_batch_placeholder "http://a" 201 "ok"
    (fun s => Except.ok s) (by decide) (by decide)
  have h2 := h.2 (fun _ => HTTPResult.response 201 "ok")
    [{ title := "t", url := "http://a", summary := "s" }] 0
    { title := "t", url := "http://a", summary := "s" } rfl rfl rfl
  exact ⟨h.1, h2.1, h2.2⟩

lemma findRun_map_preserve (runs : List JobRun) (rid : Int) (f : JobRun → JobRun)
    (hf : ∀ r, (f r).id = r.id) :
    findRun (runs.map f) rid = (findRun runs rid).map f := by
  induction runs with
  | nil => rfl
  | cons r rest ih =>
    simp only [findRun, List.map_cons, List.find?_cons, hf] at ih ⊢
    by_cases h : r.id = rid
    · simp [h]
    · simp only [h, decide_eq_true_eq, if_neg h]
      simpa [h] using ih

lemma sendNotification_runs (db : DB) (prefs : Pref) (jobName : String)
    (result : JobResult) :
    (sendNotification db prefs jobName result).runs = db.runs := by
  unfold sendNotification
  split
  · rfl
  · rcases result.error <;> simp only [] <;> split <;> first | rfl | split <;> rfl

lemma sendNotification_job (db : DB) (prefs : Pref) (jobName : String)
    (result : JobResult) :
    (sendNotification db prefs jobName result).job = db.job := by
  unfold sendNotification
  split
  · rfl
  · rcases result.error <;> simp only [] <;> split <;> first | rfl | split <;> rfl

/-- Claim C6: the JobRun status written by `finalizeRun` (when it finds the
run still running and finalizes it) is `failed` on an error,
`completed_no_new` on success with zero new articles, and `completed`
otherwise; the error message, the counts and the completion timestamp are
recorded alongside. -/
theorem finalizeRun_status_mapping
    (env : Env) (job : Job) (runID : Int) (result : JobResult) (prefs : Pref)
    (db : DB) (run : JobRun)
    (hfind : findRun db.runs runID = some run)
    (hrun : run.status = "running") :
    findRun (finalizeRun env job runID result prefs db).runs runID =
      some { run with
        status :=
          if result.error.isSome then "failed"
          else if result.articlesSaved = 0 then "completed_no_new"
          else "completed",
        errorMessage := some (result.error.getD ""),
        articlesSaved := some result.articlesSaved,
        duplicatesSkipped := some result.duplicatesSkipped,
        completedAt := some env.now } := by
  have hid : run.id = runID := by simpa using List.find?_some hfind
  unfold finalizeRun
  simp only [hfind]
  rw [hrun, if_neg (by simp : ¬(("running" : String) ≠ "running"))]
  rw [sendNotification_runs]
  simp only [updateJobConversation_runs, updateJobStatus_runs]
  have hdea : ∀ (c : Prop) [Decidable c] (db2 : DB) (i : Int),
      (if c then deactivateJob db2 i else db2).runs = db2.runs := by
    intro c _ db2 i
    split <;> simp
  rw [hdea]
  unfold completeJobRun
  simp only []
  rw [findRun_map_preserve _ _ _ (by intro r; split <;> rfl)]
  rw [hfind]
  simp only [Option.map_some']
  rw [if_pos hid]

/-- Witness for C6 at a concrete failing result. -/
theorem finalizeRun_status_mapping_witness :
    findRun (finalizeRun exEnvOK exJob 10
      { articlesSaved := 0, duplicatesSkipped := 2, conversationID := "cv1",
        error := some "job timed out" } exPrefs exDBRunning).runs 10 =
      some { exRun with
        status := "failed", errorMessage := some "job timed out",
        articlesSaved := some 0, duplicatesSkipped := some 2,
        completedAt := some 100 } := by
  have h := finalizeRun_status_mapping exEnvOK exJob 10
    { articlesSaved := 0, duplicatesSkipped := 2, conversationID := "cv1",
      error := some "job timed out" } exPrefs exDBRunning exRun (by decide) (by decide)
  simpa using h

/-- Claim C3: inserting an Article whose (user, URL) pair already exists
stores no second row and is classified as a duplicate; the per-(user,
non-empty URL) uniqueness invariant is preserved by every insert; and
inserting the same pair twice is idempotent, the second attempt reporting
a duplicate and leaving the store unchanged. -/
theorem insertArticle_duplicate_unique_idempotent
    (db : DB) (job : Job) (info : ArticleInfo) (path path2 : String)
    (hurl : info.url ≠ "") :
    ((db.articles.any fun r => r.userID = job.userID && r.url = info.url) = true →
      insertArticle db job info path = (false, db)) ∧
    (uniqueUserUrl db.articles →
      uniqueUserUrl (insertArticle db job info path).2.articles) ∧
    insertArticle (insertArticle db job info path).2 job info path2 =
      (false, (insertArticle db job info path).2) := by
  by_cases hdup : 0 < articleExistsByURL db.articles job.userID info.url
  · have hins : insertArticle db job info path = (false, db) := by
      unfold insertArticle
      rw [if_pos hdup]
    have hins2 : insertArticle db job info path2 = (false, db) := by
      unfold insertArticle
      rw [if_pos hdup]
    refine ⟨fun _ => hins, ?_, ?_⟩
    · rw [hins]; exact fun h => h
    · rw [hins]; exact hins2
  · have hzero : articleExistsByURL db.articles job.userID info.url = 0 := by omega
    have hnone : ∀ a ∈ db.articles, ¬(a.userID = job.userID && a.url = info.url) = true := by
      rw [← List.countP_eq_zero]
      exact hzero
    have hins : insertArticle db job info path =
        (true, createArticle db (newArticleRow job info path)) := by
      unfold insertArticle
      rw [if_neg hdup]
    have hpos : 0 < articleExistsByURL
        (createArticle db (newArticleRow job info path)).articles job.userID info.url := by
      unfold articleExistsByURL createArticle
      simp only []
      rw [List.countP_append]
      have h1 : List.countP (fun r => r.userID = job.userID && r.url = info.url)
          [newArticleRow job info path] = 1 := by
        simp [newArticleRow]
      omega
    refine ⟨?_, ?_, ?_⟩
    · intro hany
      exfalso
      obtain ⟨a, ha, hpa⟩ := List.any_eq_true.mp hany
      exact hnone a ha hpa
    · intro hu
      rw [hins]
      unfold createArticle uniqueUserUrl
      simp only []
      rw [List.pairwise_append]
      refine ⟨hu, by simp, ?_⟩
      intro a ha b hb h1 h2
      exfalso
      rw [List.mem_singleton] at hb
      subst hb
      exact hnone a ha (by simp [newArticleRow] at h1 h2; simp [h1, h2])
    · rw [hins]
      unfold insertArticle
      rw [if_pos hpos]

/-- Witness for C3: inserting the same (user, URL) pair twice leaves one
row and reports a duplicate. -/
theorem insertArticle_duplicate_unique_idempotent_witness :
    insertArticle (insertArticle exDB exJob
        { title := "A", url := "http://x", summary := "s" } "p1").2 exJob
      { title := "A", url := "http://x", summary := "s" } "p2" =
      (false, (insertArticle exDB exJob
        { title := "A", url := "http://x", summary := "s" } "p1").2) :=
  (insertArticle_duplicate_unique_idempotent exDB exJob
    { title := "A", url := "http://x", summary := "s" } "p1" "p2" (by decide)).2.2

/-- Claim C7: the repair pass maps the example input with unescaped
embedded quotes to its escaped form, and the repaired text parses as a
one-element array whose title contains the embedded quotes. -/
theorem repair_example_embedded_quotes :
    fixMalformedJSON "[\x7b\"title\": \"He said \"hi\" to me\"\x7d]" =
      "[\x7b\"title\": \"He said \\\"hi\\\" to me\"\x7d]" ∧
    unmarshalArticles "[\x7b\"title\": \"He said \\\"hi\\\" to me\"\x7d]" =
      some [{ title := "He said \"hi\" to me", url := "", summary := "" }] :=
  ⟨rfl, rfl⟩

@[simp] lemma executeJob_runs (env : Env) (job : Job) (db : DB) :
    (executeJob env job db).2.runs = db.runs := (executeJob_frame env job db).1

@[simp] lemma executeJob_notifications (env : Env) (job : Job) (db : DB) :
    (executeJob env job db).2.notifications = db.notifications :=
  (executeJob_frame env job db).2.1

@[simp] lemma executeJob_nextRunId (env : Env) (job : Job) (db : DB) :
    (executeJob env job db).2.nextRunId = db.nextRunId :=
  (executeJob_frame env job db).2.2.1

@[simp] lemma executeJob_job_id (env : Env) (job : Job) (db : DB) :
    (executeJob env job db).2.job.id = db.job.id := (executeJob_frame env job db).2.2.2

/-- Claim C1: when the context is cancelled during polling, `Run` returns
the cancellation error without finalizing — the JobRun it created is still
in running state with no error message and no completion timestamp, and no
notification was dispatched — and `Resume` likewise returns without
touching any run row or sending any notification. -/
theorem run_cancelled_during_poll_not_finalized
    (env : Env) (db db2 : DB) (jobID runID : Int) (run : JobRun)
    (hc : env.ctxCancelled = true)
    (hjob : db.job.id = jobID)
    (hfind : findRun db2.runs runID = some run)
    (hrun : run.status = "running")
    (hjob2 : db2.job.id = run.jobID) :
    ((Run env db jobID).1 = Except.error "context canceled" ∧
     findRun (Run env db jobID).2.runs db.nextRunId =
       some { id := db.nextRunId, jobID := jobID, status := "running",
              errorMessage := none, articlesSaved := none,
              duplicatesSkipped := none, startedAt := some env.now,
              completedAt := none,
              logPath := some ("run_" ++ toString db.nextRunId ++ ".log") } ∧
     (Run env db jobID).2.notifications = db.notifications) ∧
    ((Resume env db2 runID).1 = Except.error "context canceled" ∧
     (Resume env db2 runID).2.runs = db2.runs ∧
     (Resume env db2 runID).2.notifications = db2.notifications) := by
  constructor
  · have hne : ¬(db.job.id ≠ jobID) := by simp [hjob]
    simp only [Run, if_neg hne, hc, if_true]
    refine ⟨by trivial, ?_, ?_⟩
    · rw [executeJob_runs]
      simp only [updateJobRunLogPath, updateJobStatus_runs, createJobRun,
        cancelOrphanedRuns_nextRunId]
      simp [findRun, List.find?_cons]
    · rw [executeJob_notifications]
      simp only [updateJobRunLogPath, updateJobStatus_notifications, createJobRun]
      simp
  · simp only [Resume, hfind]
    rw [hrun]
    have h1 : ¬(("running" : String) ≠ "running") := by simp
    rw [if_neg h1]
    have h2 : ¬(db2.job.id ≠ run.jobID) := by simp [hjob2]
    rw [if_neg h2]
    simp only [hc, if_true]
    exact ⟨by trivial, executeJob_runs env db2.job db2,
      executeJob_notifications env db2.job db2⟩

/-- Witness for C1: a concrete cancelled run and a concrete cancelled
resume, both left unfinalized. -/
theorem run_cancelled_during_poll_not_finalized_witness :
    ((Run exEnvCancel exDB 1).1 = Except.error "context canceled" ∧
     findRun (Run exEnvCancel exDB 1).2.runs 10 =
       some { id := 10, jobID := 1, status := "running", errorMessage := none,
              articlesSaved := none, duplicatesSkipped := none,
              startedAt := some 100, completedAt := none,
              logPath := some "run_10.log" } ∧
     (Run exEnvCancel exDB 1).2.notifications = [] ∧
     (Resume exEnvCancel exDBRunning 10).2.runs = [exRun]) := by
  have h := run_cancelled_during_poll_not_finalized exEnvCancel exDB exDBRunning
    1 10 exRun rfl rfl (by decide) rfl rfl
  exact ⟨h.1.1, h.1.2.1, h.1.2.2, h.2.2.1⟩

lemma updateJobStatus_job_eq (db : DB) (i : Int) (st : String)
    (lra nra : Option Int) (h : db.job.id = i) :
    (updateJobStatus db i st lra nra).job =
      { db.job with status := st, lastRunAt := lra, nextRunAt := nra } := by
  unfold updateJobStatus
  rw [if_pos h]

/-- Counterexample to claim C2 as stated: a recurring job with a scheduled
`next_run_at` finishes a run with a terminal (timeout) error; `finalizeRun`
marks the job failed but does not leave `next_run_at` untouched — the
status update overwrites it with NULL. -/
theorem finalize_error_next_run_counterexample :
    exDBRunning.job.nextRunAt = some 5000 ∧
    (finalizeRun exEnvOK exJob 10
      { articlesSaved := 0, duplicatesSkipped := 0, conversationID := "cv1",
        error := some "job timed out" } exPrefs exDBRunning).job.status = "failed" ∧
    (finalizeRun exEnvOK exJob 10
      { articlesSaved := 0, duplicatesSkipped := 0, conversationID := "cv1",
        error := some "job timed out" } exPrefs exDBRunning).job.nextRunAt = none := by
  refine ⟨rfl, ?_, ?_⟩ <;> rfl

/-- Claim C2 (amended): for every run that ends with a terminal error,
`finalizeRun` marks the Job failed and computes no next run time — the job
status update clears `next_run_at` (writes NULL) instead of leaving it
untouched; the recurring cadence itself is driven by the external
scheduler unit, not by this column. -/
theorem finalize_error_marks_failed_clears_next_run
    (env : Env) (job : Job) (runID : Int) (result : JobResult) (prefs : Pref)
    (db : DB) (run : JobRun) (e : String)
    (hfind : findRun db.runs runID = some run)
    (hrun : run.status = "running")
    (herr : result.error = some e)
    (hjob : db.job.id = job.id) :
    (finalizeRun env job runID result prefs db).job.status = "failed" ∧
    (finalizeRun env job runID result prefs db).job.nextRunAt = none := by
  unfold finalizeRun
  simp only [hfind]
  rw [hrun, if_neg (by simp : ¬(("running" : String) ≠ "running"))]
  simp only [herr, Option.isSome_some, if_true, Option.isNone_some,
    Bool.and_false, if_false, ite_true, ite_false]
  have hid3 : ∀ (c : Prop) [Decidable c],
      ((if c then deactivateJob (completeJobRun db runID "failed" ((some e).getD "")
          result.articlesSaved result.duplicatesSkipped env.now) job.id
        else completeJobRun db runID "failed" ((some e).getD "")
          result.articlesSaved result.duplicatesSkipped env.now)).job.id = job.id := by
    intro c _
    split <;> simp [hjob]
  rw [sendNotification_job]
  constructor
  · rw [updateJobConversation_job_status, updateJobStatus_job_eq _ _ _ _ _ (hid3 _)]
  · rw [updateJobConversation_job_nextRunAt, updateJobStatus_job_eq _ _ _ _ _ (hid3 _)]
    simp

/-- Witness for C2's amended claim at a concrete timed-out run. -/
theorem finalize_error_marks_failed_clears_next_run_witness :
    (finalizeRun exEnvTimeout exJob 10
      { articlesSaved := 0, duplicatesSkipped := 0, conversationID := "cv1",
        error := some "job timed out" } exPrefs exDBRunning).job.status = "failed" ∧
    (finalizeRun exEnvTimeout exJob 10
      { articlesSaved := 0, duplicatesSkipped := 0, conversationID := "cv1",
        error := some "job timed out" } exPrefs exDBRunning).job.nextRunAt = none :=
  finalize_error_marks_failed_clears_next_run exEnvTimeout exJob 10
    { articlesSaved := 0, duplicatesSkipped := 0, conversationID := "cv1",
      error := some "job timed out" } exPrefs exDBRunning exRun "job timed out"
    (by decide) (by decide) rfl (by decide)

lemma cutset_not_special {c : Char} (h : isCutsetWs c = true) :
    c ≠ '\\' ∧ c ≠ '"' := by
  have hor : ((c = ' ' ∨ c = '\t') ∨ c = '\n') ∨ c = '\r' := by
    simpa [isCutsetWs] using h
  rcases hor with ((rfl | rfl) | rfl) | rfl <;> exact ⟨by decide, by decide⟩

lemma terminator_not_special {c : Char}
    (h : (c = ',' || c = '}' || c = ']' || c = ':') = true) :
    c ≠ '\\' ∧ c ≠ '"' := by
  have hor : ((c = ',' ∨ c = '}') ∨ c = ']') ∨ c = ':' := by simpa using h
  rcases hor with ((rfl | rfl) | rfl) | rfl <;> exact ⟨by decide, by decide⟩

lemma trimLeftCutset_cons_ws {c : Char} (h : isCutsetWs c = true) (l : List Char) :
    trimLeftCutset (c :: l) = trimLeftCutset l := by
  simp [trimLeftCutset, h]

lemma trimLeftCutset_cons_not {c : Char} (h : ¬ isCutsetWs c = true) (l : List Char) :
    trimLeftCutset (c :: l) = c :: l := by
  simp [trimLeftCutset, h]

lemma fixChars_cons_escape (s : Bool) (c : Char) (l : List Char) :
    fixChars s true (c :: l) = c :: fixChars s false l := by
  simp [fixChars]

lemma fixChars_cons_backslash (s : Bool) (l : List Char) :
    fixChars s false ('\\' :: l) = '\\' :: fixChars s true l := by
  simp [fixChars]

lemma fixChars_cons_quote_open (l : List Char) :
    fixChars false false ('"' :: l) = '"' :: fixChars true false l := by
  simp [fixChars]

lemma fixChars_cons_quote_close (l : List Char)
    (h : looksLikeStringEnd (trimLeftCutset (l.take 19)) = true) :
    fixChars true false ('"' :: l) = '"' :: fixChars false false l := by
  simp [fixChars, h]

lemma fixChars_cons_quote_embed (l : List Char)
    (h : looksLikeStringEnd (trimLeftCutset (l.take 19)) = false) :
    fixChars true false ('"' :: l) = '\\' :: '"' :: fixChars true false l := by
  simp [fixChars, h]

lemma fixChars_cons_other (s e : Bool) {c : Char} (h1 : c ≠ '\\') (h2 : c ≠ '"')
    (l : List Char) : fixChars s e (c :: l) = c :: fixChars s false l := by
  cases e <;> simp [fixChars, h1, h2]

/-- The close-or-escape lookahead of the repair pass is stable under the
pass itself: the pass never deletes characters and inserts backslashes
only in front of quotes, so the first non-whitespace character inside the
19-character window — when it is a string terminator or the window is all
whitespace — is unchanged. -/
lemma fixChars_window : ∀ (l : List Char) (n : Nat),
    looksLikeStringEnd (trimLeftCutset (l.take n)) = true →
    looksLikeStringEnd (trimLeftCutset ((fixChars false false l).take n)) = true := by
  intro l
  induction l with
  | nil => intro n h; exact h
  | cons c cs ih =>
    intro n h
    cases n with
    | zero => simpa using h
    | succ m =>
      rw [List.take_succ_cons] at h
      by_cases hws : isCutsetWs c = true
      · obtain ⟨h1, h2⟩ := cutset_not_special hws
        rw [trimLeftCutset_cons_ws hws] at h
        rw [fixChars_cons_other false false h1 h2, List.take_succ_cons,
          trimLeftCutset_cons_ws hws]
        exact ih m h
      · rw [trimLeftCutset_cons_not hws] at h
        have hterm : (c = ',' || c = '}' || c = ']' || c = ':') = true := by
          simpa [looksLikeStringEnd] using h
        obtain ⟨h1, h2⟩ := terminator_not_special hterm
        rw [fixChars_cons_other false false h1 h2, List.take_succ_cons,
          trimLeftCutset_cons_not hws]
        simpa [looksLikeStringEnd] using hterm

/-- The repair pass is idempotent on every input, whatever the starting
scanner state: the first pass's output classifies every unescaped quote as
an opener or closer, and the second pass makes the same decisions. -/
lemma fixChars_fixChars : ∀ (l : List Char) (s e : Bool),
    fixChars s e (fixChars s e l) = fixChars s e l := by
  intro l
  induction l with
  | nil => intro s e; rfl
  | cons c cs ih =>
    intro s e
    cases e with
    | true =>
      rw [fixChars_cons_escape, fixChars_cons_escape, ih]
    | false =>
      by_cases hb : c = '\\'
      · subst hb
        rw [fixChars_cons_backslash, fixChars_cons_backslash, ih]
      · by_cases hq : c = '"'
        · subst hq
          cases s with
          | false => rw [fixChars_cons_quote_open, fixChars_cons_quote_open, ih]
          | true =>
            cases hlook : looksLikeStringEnd (trimLeftCutset (cs.take 19)) with
            | true =>
              rw [fixChars_cons_quote_close cs hlook,
                fixChars_cons_quote_close _ (fixChars_window cs 19 hlook), ih]
            | false =>
              rw [fixChars_cons_quote_embed cs hlook, fixChars_cons_backslash,
                fixChars_cons_escape, ih]
        · rw [fixChars_cons_other s false hb hq, fixChars_cons_other s false hb hq, ih]

/-- Claim C8: the repair pass is idempotent — for every string (so in
particular for every already-valid JSON document) applying
`fixMalformedJSON` twice yields output byte-identical to applying it
once. -/
theorem fixMalformedJSON_idempotent (s : String) :
    fixMalformedJSON (fixMalformedJSON s) = fixMalformedJSON s := by
  show String.mk (fixChars false false (fixChars false false s.data)) =
    String.mk (fixChars false false s.data)
  exact congrArg String.mk (fixChars_fixChars s.data false false)

lemma cbEndMatchNow_none {l : List Char} (h : btick ∉ l) : cbEndMatchNow l = none := by
  unfold cbEndMatchNow
  cases hd : l.dropWhile isRegexSpace with
  | nil => rfl
  | cons b1 rest =>
    cases rest with
    | nil => rfl
    | cons b2 rest2 =>
      cases rest2 with
      | nil => rfl
      | cons b3 rest3 =>
        have hb1 : b1 ∈ l := by
          apply (List.dropWhile_sublist (l := l) isRegexSpace).subset
          rw [hd]
          exact List.mem_cons_self _ _
        have hne : ¬(b1 = btick) := fun he => h (he ▸ hb1)
        simp [hne]

lemma replaceCBEndAux_no_btick : ∀ (fuel : Nat) (l : List Char), btick ∉ l →
    replaceCBEndAux fuel l = l := by
  intro fuel
  induction fuel with
  | zero => intro l _; rfl
  | succ n ih =>
    intro l h
    cases l with
    | nil => rfl
    | cons c cs =>
      simp only [replaceCBEndAux, cbEndMatchNow_none h]
      rw [ih cs (fun hm => h (List.mem_cons_of_mem c hm))]

lemma cbStartMatchNow_none {l : List Char} (h : btick ∉ l) : cbStartMatchNow l = none := by
  unfold cbStartMatchNow
  cases hd : l.dropWhile isRegexSpace with
  | nil => rfl
  | cons b1 rest =>
    cases rest with
    | nil => rfl
    | cons b2 rest2 =>
      cases rest2 with
      | nil => rfl
      | cons b3 rest3 =>
        have hb1 : b1 ∈ l := by
          apply (List.dropWhile_sublist (l := l) isRegexSpace).subset
          rw [hd]
          exact List.mem_cons_self _ _
        have hne : ¬(b1 = btick) := fun he => h (he ▸ hb1)
        simp [hne]

lemma breakLine_append : ∀ (l : List Char), (breakLine l).1 ++ (breakLine l).2 = l := by
  intro l
  induction l with
  | nil => rfl
  | cons c cs ih =>
    simp only [breakLine]
    split
    · rfl
    · simp only [List.cons_append, ih]

lemma replaceCBStartAux_no_btick : ∀ (fuel : Nat) (atLS : Bool) (l : List Char),
    btick ∉ l → replaceCBStartAux fuel atLS l = l := by
  intro fuel
  induction fuel with
  | zero => intro atLS l _; rfl
  | succ n ih =>
    intro atLS l h
    cases l with
    | nil => rfl
    | cons c cs =>
      have hp2 : btick ∉ (breakLine (c :: cs)).2 := by
        intro hm
        apply h
        rw [← breakLine_append (c :: cs)]
        exact List.mem_append_right _ hm
      cases atLS with
      | true =>
        simp only [replaceCBStartAux, cbStartMatchNow_none h, if_true]
        rw [ih true _ hp2, breakLine_append]
      | false =>
        simp only [replaceCBStartAux, Bool.false_eq_true, if_false]
        rw [ih true _ hp2, breakLine_append]

lemma dropWhile_append_cons_not {α : Type} {p : α → Bool} (l₁ : List α) (c : α)
    (l₂ : List α) (hc : p c = false) :
    (l₁ ++ c :: l₂).dropWhile p = l₁.dropWhile p ++ c :: l₂ := by
  rw [List.dropWhile_append]
  split
  · rename_i hemp
    rw [List.isEmpty_iff] at hemp
    simp [hemp, List.dropWhile_cons, hc]
  · rfl

lemma trimSpace_wrapped (pre mid post : List Char) :
    trimSpace (pre ++ ('[' :: mid ++ [']']) ++ post) =
      pre.dropWhile isUnicodeSpace ++ ('[' :: mid ++ [']']) ++
        (post.reverse.dropWhile isUnicodeSpace).reverse := by
  unfold trimSpace
  rw [show pre ++ ('[' :: mid ++ [']']) ++ post = pre ++ '[' :: (mid ++ [']'] ++ post) by
    simp]
  rw [dropWhile_append_cons_not _ _ _ (by decide)]
  rw [show (pre.dropWhile isUnicodeSpace ++ '[' :: (mid ++ [']'] ++ post)).reverse =
      post.reverse ++ ']' :: (mid.reverse ++ '[' :: (pre.dropWhile isUnicodeSpace).reverse) by
    simp]
  rw [dropWhile_append_cons_not _ _ _ (by decide)]
  simp

lemma findJSONArray_wrapped (p mid q : List Char) (hp : '[' ∉ p) (hq : ']' ∉ q) :
    findJSONArray (p ++ ('[' :: mid ++ [']']) ++ q) = some ('[' :: mid ++ [']']) := by
  unfold findJSONArray
  have h1 : p.dropWhile (fun c => !(c = '[')) = [] :=
    List.dropWhile_eq_nil_iff.mpr (fun x hx => by
      simp only [Bool.not_eq_true']
      exact decide_eq_false (fun he => hp (he ▸ hx)))
  have h2 : q.reverse.dropWhile (fun c => !(c = ']')) = [] :=
    List.dropWhile_eq_nil_iff.mpr (fun x hx => by
      simp only [Bool.not_eq_true']
      exact decide_eq_false (fun he => hq (he ▸ (List.mem_reverse.mp hx))))
  rw [show p ++ ('[' :: mid ++ [']']) ++ q = p ++ '[' :: (mid ++ [']'] ++ q) by simp]
  rw [dropWhile_append_cons_not _ _ _ (by simp), h1]
  simp only [List.nil_append]
  rw [show mid ++ [']'] ++ q = mid ++ ']' :: q by simp]
  rw [show (mid ++ ']' :: q).reverse = q.reverse ++ ']' :: mid.reverse by simp]
  rw [dropWhile_append_cons_not _ _ _ (by simp), h2]
  simp

lemma extractJSONArray_wrapped (pre mid post : List Char)
    (hbpre : btick ∉ pre) (hbmid : btick ∉ mid) (hbpost : btick ∉ post)
    (hp : '[' ∉ pre) (hq : ']' ∉ post) :
    extractJSONArray (String.mk (pre ++ ('[' :: mid ++ [']']) ++ post)) =
      Except.ok (String.mk ('[' :: mid ++ [']'])) := by
  have hbAll : btick ∉ pre ++ ('[' :: mid ++ [']']) ++ post := by
    intro hm
    rcases List.mem_append.mp hm with hm1 | hm5
    · rcases List.mem_append.mp hm1 with hm2 | hm3
      · exact hbpre hm2
      · rcases List.mem_cons.mp hm3 with he | hm4
        · exact (by decide : btick ≠ '[') he
        · rcases List.mem_append.mp hm4 with hm6 | hm7
          · exact hbmid hm6
          · exact (by decide : btick ≠ ']') (List.mem_singleton.mp hm7)
    · exact hbpost hm5
  unfold extractJSONArray
  rw [show (String.mk (pre ++ ('[' :: mid ++ [']']) ++ post)).data =
      pre ++ ('[' :: mid ++ [']']) ++ post from rfl]
  rw [replaceCBStart, replaceCBStartAux_no_btick _ _ _ hbAll]
  rw [replaceCBEnd, replaceCBEndAux_no_btick _ _ hbAll]
  rw [trimSpace_wrapped]
  rw [findJSONArray_wrapped _ _ _
    (fun hm => hp ((List.dropWhile_sublist isUnicodeSpace).subset hm))
    (fun hm => hq (List.mem_reverse.mp
      ((List.dropWhile_sublist isUnicodeSpace).subset (List.mem_reverse.mp hm))))]

/-- Counterexample to claim C4 as stated: the surrounding prose is
quantified as arbitrary, but prose containing brackets corrupts the greedy
first-`[`-to-last-`]` span.  Here extraction spans from the `[1]` citation
through the array; the span fails to parse even after repair, and
`ExtractArticlesJSON` errors, while the embedded valid JSON array alone
parses to the one-element list. -/
theorem extract_wrapped_prose_counterexample :
    ExtractArticlesJSON "see [1] first [\x7b\"title\":\"A\"\x7d] thanks" =
      Except.error "parse JSON" ∧
    unmarshalArticles "[\x7b\"title\":\"A\"\x7d]" =
      some [{ title := "A", url := "", summary := "" }] := ⟨rfl, rfl⟩

/-- Claim C4 (amended): for every valid JSON array and every surrounding
prose and/or stripped markdown, provided the array contains no backtick
and the surrounding text contains no backtick, no `[` before the array and
no `]` after it, `ExtractArticlesJSON` on the wrapped text returns exactly
the array parsed from the bracketed substring alone. -/
theorem extract_wrapped_clean_prose
    (pre mid post : List Char) (as : List ArticleInfo)
    (hbpre : btick ∉ pre) (hbmid : btick ∉ mid) (hbpost : btick ∉ post)
    (hp : '[' ∉ pre) (hq : ']' ∉ post)
    (hparse : unmarshalArticles (String.mk ('[' :: mid ++ [']'])) = some as) :
    ExtractArticlesJSON (String.mk (pre ++ ('[' :: mid ++ [']']) ++ post)) =
      Except.ok as ∧
    ExtractArticlesJSON (String.mk ('[' :: mid ++ [']'])) = Except.ok as := by
  constructor
  · unfold ExtractArticlesJSON
    rw [extractJSONArray_wrapped pre mid post hbpre hbmid hbpost hp hq]
    simp only [hparse]
  · unfold ExtractArticlesJSON
    have hself := extractJSONArray_wrapped [] mid []
      (by simp) hbmid (by simp) (by simp) (by simp)
    simp only [List.nil_append, List.append_nil] at hself
    rw [hself]
    simp only [hparse]

/-- Witness for C4's amended claim: the spec §8 example, prose before and
after a three-field array. -/
theorem extract_wrapped_clean_prose_witness :
    ExtractArticlesJSON (String.mk ("Here are results:\n".data ++
      ('[' :: "\x7b\"title\":\"A\",\"url\":\"http://x\",\"summary\":\"s\"\x7d".data ++ [']']) ++
      "\nDone".data)) =
      Except.ok [{ title := "A", url := "http://x", summary := "s" }] :=
  (extract_wrapped_clean_prose
    ("Here are results:\n".data)
    ("\x7b\"title\":\"A\",\"url\":\"http://x\",\"summary\":\"s\"\x7d".data)
    ("\nDone".data)
    [{ title := "A", url := "http://x", summary := "s" }]
    (by decide) (by decide) (by decide) (by decide) (by decide) (by decide)).1

end NewsApp
